import Mathlib

/-!
Verification of the astrometric calibration core of RMS
(`RMS/Astrometry/ApplyAstrometry.py`).

Shallow real-number embedding: Python floats are modelled as real numbers,
numpy 1-D arrays as lists of reals, Python's float modulo `%` as `pymod`,
`math.atan2`/`np.arctan2` as the complex argument, and numpy's special
values (`nan`, `±inf`) — where a claim is about them — via the `NpVal` type.
-/

noncomputable section

open Real

/-- Python's float modulo `x % y`: floor-based, result has the sign of the
divisor (for positive `y` the result lies in `[0, y)`). -/
def pymod (x y : ℝ) : ℝ := x - y * (⌊x / y⌋ : ℤ)

/-- `math.radians` / `np.radians`. -/
def radians (x : ℝ) : ℝ := x * π / 180

/-- `math.degrees` / `np.degrees`. -/
def degrees (x : ℝ) : ℝ := x * 180 / π

/-- `math.atan2 y x` / `np.arctan2 y x`: the argument of the complex number
`x + y*i`, valued in `(-π, π]`, with `atan2 0 0 = 0`. -/
def atan2 (y x : ℝ) : ℝ := Complex.arg ⟨x, y⟩

/-- The camera model ("platepar"): the fields of `RMS.Formats.Platepar`
consumed by `ApplyAstrometry`. Resolutions are kept as reals because the
code only uses them in real arithmetic. -/
structure Platepar where
  lat : ℝ
  lon : ℝ
  RA_d : ℝ
  dec_d : ℝ
  JD : ℝ
  Ho : ℝ
  pos_angle_ref : ℝ
  X_res : ℝ
  Y_res : ℝ
  F_scale : ℝ
  x_poly_fwd : Fin 12 → ℝ
  y_poly_fwd : Fin 12 → ℝ
  mag_0 : ℝ
  mag_lev : ℝ
  UT_corr : ℝ
  elev : ℝ

instance : Inhabited Platepar :=
  ⟨⟨0, 0, 0, 0, 0, 0, 0, 0, 0, 0, fun _ => 0, fun _ => 0, 0, 0, 0, 0⟩⟩

/-- `platepar.pos_angle_ref = p` (the single field assignment performed by the
position-angle solvers' residual closures). -/
def setPosAngle (pp : Platepar) (p : ℝ) : Platepar := { pp with pos_angle_ref := p }

/-- Body of the loop of `applyFieldCorrection` (ApplyAstrometry.py, lines
399-442): centre the pixel coordinates, evaluate the 12-term forward
polynomials exactly as written in the source (note the order of the last two
radial terms of the Y polynomial: `y_poly_fwd[10]*Ydet*r + y_poly_fwd[11]*Xdet*r`),
add the correction, divide by `F_scale`. -/
def applyFieldCorrectionPoint (x_poly_fwd y_poly_fwd : Fin 12 → ℝ)
    (X_res Y_res F_scale : ℝ) (X Y : ℝ) : ℝ × ℝ :=
  let Xdet := X - X_res / 2
  let Ydet := Y - Y_res / 2
  let r := Real.sqrt (Xdet ^ 2 + Ydet ^ 2)
  let dX := x_poly_fwd 0
    + x_poly_fwd 1 * Xdet
    + x_poly_fwd 2 * Ydet
    + x_poly_fwd 3 * Xdet ^ 2
    + x_poly_fwd 4 * Xdet * Ydet
    + x_poly_fwd 5 * Ydet ^ 2
    + x_poly_fwd 6 * Xdet ^ 3
    + x_poly_fwd 7 * Xdet ^ 2 * Ydet
    + x_poly_fwd 8 * Xdet * Ydet ^ 2
    + x_poly_fwd 9 * Ydet ^ 3
    + x_poly_fwd 10 * Xdet * r
    + x_poly_fwd 11 * Ydet * r
  let dY := y_poly_fwd 0
    + y_poly_fwd 1 * Xdet
    + y_poly_fwd 2 * Ydet
    + y_poly_fwd 3 * Xdet ^ 2
    + y_poly_fwd 4 * Xdet * Ydet
    + y_poly_fwd 5 * Ydet ^ 2
    + y_poly_fwd 6 * Xdet ^ 3
    + y_poly_fwd 7 * Xdet ^ 2 * Ydet
    + y_poly_fwd 8 * Xdet * Ydet ^ 2
    + y_poly_fwd 9 * Ydet ^ 3
    + y_poly_fwd 10 * Ydet * r
    + y_poly_fwd 11 * Xdet * r
  ((Xdet + dX) / F_scale, (Ydet + dY) / F_scale)

/-- `applyFieldCorrection` (lines 371-446): per-point loop over the zipped
coordinate arrays. -/
def applyFieldCorrection (x_poly_fwd y_poly_fwd : Fin 12 → ℝ)
    (X_res Y_res F_scale : ℝ) (X_data Y_data : List ℝ) : List ℝ × List ℝ :=
  (((X_data.zip Y_data).map fun q =>
      (applyFieldCorrectionPoint x_poly_fwd y_poly_fwd X_res Y_res F_scale q.1 q.2).1),
   ((X_data.zip Y_data).map fun q =>
      (applyFieldCorrectionPoint x_poly_fwd y_poly_fwd X_res Y_res F_scale q.1 q.2).2))

/-- The rectification of one point exactly as claim C1 words it: *the same*
fixed term order (…, X·r, Y·r) for **both** axes. Used only to compare the
claim's wording with the source. -/
def claimedFieldCorrectionPoint (x_poly_fwd y_poly_fwd : Fin 12 → ℝ)
    (X_res Y_res F_scale : ℝ) (X Y : ℝ) : ℝ × ℝ :=
  let Xdet := X - X_res / 2
  let Ydet := Y - Y_res / 2
  let r := Real.sqrt (Xdet ^ 2 + Ydet ^ 2)
  let poly : (Fin 12 → ℝ) → ℝ := fun c =>
    c 0 + c 1 * Xdet + c 2 * Ydet + c 3 * Xdet ^ 2 + c 4 * Xdet * Ydet
      + c 5 * Ydet ^ 2 + c 6 * Xdet ^ 3 + c 7 * Xdet ^ 2 * Ydet
      + c 8 * Xdet * Ydet ^ 2 + c 9 * Ydet ^ 3
      + c 10 * Xdet * r + c 11 * Ydet * r
  ((Xdet + poly x_poly_fwd) / F_scale, (Ydet + poly y_poly_fwd) / F_scale)

/-- The rectification of one point as claim C1 reads once amended: the X axis
uses term order …, X·r, Y·r and the Y axis uses …, Y·r, X·r (the last two
radial terms swapped), everything else as the claim states. -/
def amendedFieldCorrectionPoint (x_poly_fwd y_poly_fwd : Fin 12 → ℝ)
    (X_res Y_res F_scale : ℝ) (X Y : ℝ) : ℝ × ℝ :=
  let Xdet := X - X_res / 2
  let Ydet := Y - Y_res / 2
  let r := Real.sqrt (Xdet ^ 2 + Ydet ^ 2)
  let polyBase : (Fin 12 → ℝ) → ℝ := fun c =>
    c 0 + c 1 * Xdet + c 2 * Ydet + c 3 * Xdet ^ 2 + c 4 * Xdet * Ydet
      + c 5 * Ydet ^ 2 + c 6 * Xdet ^ 3 + c 7 * Xdet ^ 2 * Ydet
      + c 8 * Xdet * Ydet ^ 2 + c 9 * Ydet ^ 3
  ((Xdet + (polyBase x_poly_fwd + x_poly_fwd 10 * Xdet * r + x_poly_fwd 11 * Ydet * r)) / F_scale,
   (Ydet + (polyBase y_poly_fwd + y_poly_fwd 10 * Ydet * r + y_poly_fwd 11 * Xdet * r)) / F_scale)

/-- The IAU-1982 sidereal polynomial used identically at ApplyAstrometry.py
lines 335-336 and 600-601: Greenwich hour angle (degrees, in `[0,360)`) as a
function of the Julian date. -/
def siderealHourAngle (JD : ℝ) : ℝ :=
  let T := (JD - 2451545) / 36525
  pymod (280.46061837 + 360.98564736629 * (JD - 2451545)
    + 0.000387933 * T ^ 2 - T ^ 3 / 38710000) 360

/-- The hour angle computed by `raDec2AltAz` (lines 334-349): local sidereal
time minus right ascension, wrapped to `[-π, π)`. -/
def raDec2AltAzHourAngle (JD lon ra : ℝ) : ℝ :=
  pymod (radians (siderealHourAngle JD + lon) - radians ra + π) (2 * π) - π

/-- The sine-of-elevation value of `raDec2AltAz` after the `(x + 1) % 2 - 1`
wrap of line 358. -/
def sinElevWrapped (JD lon lat ra dec : ℝ) : ℝ :=
  let ha := raDec2AltAzHourAngle JD lon ra
  let sin_elev := Real.sin (radians lat) * Real.sin (radians dec)
    + Real.cos (radians lat) * Real.cos (radians dec) * Real.cos ha
  pymod (sin_elev + 1) 2 - 1

/-- `raDec2AltAz` (lines 320-367): equatorial to horizontal coordinates,
returning `(azimuth, elevation)` in degrees. -/
def raDec2AltAz (JD lon lat ra dec : ℝ) : ℝ × ℝ :=
  let ha := raDec2AltAzHourAngle JD lon ra
  let azim := π + atan2 (Real.sin ha)
    (Real.cos ha * Real.sin (radians lat) - Real.tan (radians dec) * Real.cos (radians lat))
  let elev := Real.arcsin (sinElevWrapped JD lon lat ra dec)
  (degrees azim, degrees elev)

/-- Modelled from the spec: `date2JD` of `RMS.Astrometry.Conversions` is not
under src/; per spec §4.1 it is the Julian-date conversion of a timestamp, so
timestamps are modelled directly by their Julian date and the `UT_corr`
keyword (hours) shifts it. -/
def date2JD (t UT_corr : ℝ) : ℝ := t - UT_corr / 24

/-- Body of the loop of `altAz2RADec` (lines 571-611), for one data point
(the timestamp is modelled by its Julian date, see `date2JD`). Returns
`(JD, RA, dec)`. The altitude is nudged away from exactly 90 degrees at
lines 582-583 before any trigonometry. -/
def altAz2RADecPoint (lat lon UT_corr : ℝ) (t azimuth altitude : ℝ) : ℝ × ℝ × ℝ :=
  let JD := date2JD t (-UT_corr)
  let altitude := if altitude = 90 then 89.9999 else altitude
  let sl := Real.sin (radians lat)
  let cl := Real.cos (radians lat)
  let saz := Real.sin (radians azimuth)
  let salt := Real.sin (radians altitude)
  let caz := Real.cos (radians azimuth)
  let calt := Real.cos (radians altitude)
  let x := -saz * calt
  let y := -caz * sl * calt + salt * cl
  let HA := degrees (atan2 x y)
  let RA := pymod (siderealHourAngle JD + lon - HA) 360
  let dec := degrees (Real.arcsin (sl * salt + cl * calt * caz))
  (JD, RA, dec)

/-- `altAz2RADec` (lines 535-613): per-point loop over the zipped time,
azimuth and altitude arrays; returns `(JD_data, RA_data, dec_data)`. -/
def altAz2RADec (lat lon UT_corr : ℝ) (time_data azimuth_data altitude_data : List ℝ) :
    List ℝ × List ℝ × List ℝ :=
  let pts := time_data.zip (azimuth_data.zip altitude_data)
  ((pts.map fun q => (altAz2RADecPoint lat lon UT_corr q.1 q.2.1 q.2.2).1),
   (pts.map fun q => (altAz2RADecPoint lat lon UT_corr q.1 q.2.1 q.2.2).2.1),
   (pts.map fun q => (altAz2RADecPoint lat lon UT_corr q.1 q.2.1 q.2.2).2.2))

/-- Body of the loop of `XY2altAz` (lines 496-529) applied to one rectified
point: gnomonic reprojection around the reference pointing followed by the
equatorial-to-horizontal rotation. Returns `(azimuth, altitude)` (degrees). -/
def XY2altAzPoint (lat lon RA_d dec_d Ho pos_angle_ref : ℝ) (X_pix Y_pix : ℝ) : ℝ × ℝ :=
  let dec_rad := radians dec_d
  let sl := Real.sin (radians lat)
  let cl := Real.cos (radians lat)
  let radius := radians (Real.sqrt (X_pix ^ 2 + Y_pix ^ 2))
  let theta := radians (pymod (90 - pos_angle_ref + degrees (atan2 Y_pix X_pix)) 360)
  let sin_t := Real.sin dec_rad * Real.cos radius
    + Real.cos dec_rad * Real.sin radius * Real.cos theta
  let Dec0det := atan2 sin_t (Real.sqrt (1 - sin_t ^ 2))
  let sin_t2 := Real.sin theta * Real.sin radius / Real.cos Dec0det
  let cos_t2 := (Real.cos radius - Real.sin Dec0det * Real.sin dec_rad)
    / (Real.cos Dec0det * Real.cos dec_rad)
  let RA0det := pymod (RA_d - degrees (atan2 sin_t2 cos_t2)) 360
  let h := radians (Ho + lon - RA0det)
  let sh := Real.sin h
  let sd := Real.sin Dec0det
  let ch := Real.cos h
  let cd := Real.cos Dec0det
  let x := -ch * cd * sl + sd * cl
  let y := -sh * cd
  let z := ch * cd * cl + sd * sl
  let r := Real.sqrt (x ^ 2 + y ^ 2)
  (pymod (degrees (atan2 y x)) 360, degrees (atan2 z r))

/-- `XY2altAz` (lines 450-531): rectify the pixel coordinates with
`applyFieldCorrection`, then loop `XY2altAzPoint` over the points. Returns
`(azimuth_data, altitude_data)`. -/
def XY2altAz (X_data Y_data : List ℝ) (lat lon RA_d dec_d Ho : ℝ)
    (X_res Y_res pos_angle_ref F_scale : ℝ) (x_poly_fwd y_poly_fwd : Fin 12 → ℝ) :
    List ℝ × List ℝ :=
  let c := applyFieldCorrection x_poly_fwd y_poly_fwd X_res Y_res F_scale X_data Y_data
  (((c.1.zip c.2).map fun q => (XY2altAzPoint lat lon RA_d dec_d Ho pos_angle_ref q.1 q.2).1),
   ((c.1.zip c.2).map fun q => (XY2altAzPoint lat lon RA_d dec_d Ho pos_angle_ref q.1 q.2).2))

/-- An IEEE-754 double as numpy produces it, as far as the photometry claims
need: a finite real, one of the two infinities, or NaN. -/
inductive NpVal where
  | num (x : ℝ)
  | posinf
  | neginf
  | nan

/-- `np.log10`: base-10 logarithm with numpy's special values — `-inf` at
zero and `nan` on negative input. -/
def npLog10 (x : ℝ) : NpVal :=
  if 0 < x then .num (Real.log x / Real.log 10)
  else if x = 0 then .neginf
  else .nan

/-- Multiplication of a finite float by a possibly non-finite one,
following IEEE-754 (`0 * inf = nan`). -/
def npMul (c : ℝ) : NpVal → NpVal
  | .num x => .num (c * x)
  | .posinf => if 0 < c then .posinf else if c < 0 then .neginf else .nan
  | .neginf => if 0 < c then .neginf else if c < 0 then .posinf else .nan
  | .nan => .nan

/-- Addition of a finite float to a possibly non-finite one (IEEE-754). -/
def npAdd : NpVal → ℝ → NpVal
  | .num x, c => .num (x + c)
  | .posinf, _ => .posinf
  | .neginf, _ => .neginf
  | .nan, _ => .nan

/-- A float that is not an ordinary finite number. -/
def NpVal.nonFinite : NpVal → Prop
  | .num _ => False
  | _ => True

/-- `calculateMagnitudes` (lines 617-638): elementwise
`mag_0 * log10(level) + mag_lev`, never raising on non-positive levels. -/
def calculateMagnitudes (level_data : List ℝ) (mag_0 mag_lev : ℝ) : List NpVal :=
  level_data.map fun level => npAdd (npMul mag_0 (npLog10 level)) mag_lev

/-- Modelled from the spec: `cyXYToRADec` of `RMS.Astrometry.CyFunctions` is
not under src/. Per spec §4.3 (and the "slow Python version ... for legacy
purposes" kept in the source at lines 697-708) it is the composition of the
pixel-to-horizontal path `XY2altAz` with the horizontal-to-equatorial path
`altAz2RADec` at the per-point Julian dates. Returns `(RA_data, dec_data)`. -/
def cyXYToRADec (JD_data X_data Y_data : List ℝ)
    (lat lon Ho X_res Y_res RA_d dec_d pos_angle_ref F_scale : ℝ)
    (x_poly_fwd y_poly_fwd : Fin 12 → ℝ) : List ℝ × List ℝ :=
  let azalt := XY2altAz X_data Y_data lat lon RA_d dec_d Ho X_res Y_res pos_angle_ref
    F_scale x_poly_fwd y_poly_fwd
  let radec := altAz2RADec lat lon 0 JD_data azalt.1 azalt.2
  (radec.2.1, radec.2.2)

/-- `XY2CorrectedRADec` (lines 642-693): Julian dates from the timestamps,
RA/Dec through `cyXYToRADec`, magnitudes through `calculateMagnitudes`.
Returns `(JD_data, RA_data, dec_data, magnitude_data)`. -/
def XY2CorrectedRADec (time_data X_data Y_data level_data : List ℝ)
    (lat lon Ho X_res Y_res RA_d dec_d pos_angle_ref F_scale mag_0 mag_lev : ℝ)
    (x_poly_fwd y_poly_fwd : Fin 12 → ℝ) (station_ht : ℝ) :
    List ℝ × List ℝ × List ℝ × List NpVal :=
  let JD_data := time_data.map fun t => date2JD t 0
  let radec := cyXYToRADec JD_data X_data Y_data lat lon Ho X_res Y_res RA_d dec_d
    pos_angle_ref F_scale x_poly_fwd y_poly_fwd
  (JD_data, radec.1, radec.2, calculateMagnitudes level_data mag_0 mag_lev)

/-- `XY2CorrectedRADecPP` (lines 729-753): the platepar-driven wrapper. -/
def XY2CorrectedRADecPP (time_data X_data Y_data level_data : List ℝ) (pp : Platepar) :
    List ℝ × List ℝ × List ℝ × List NpVal :=
  XY2CorrectedRADec time_data X_data Y_data level_data pp.lat pp.lon pp.Ho pp.X_res
    pp.Y_res pp.RA_d pp.dec_d pp.pos_angle_ref pp.F_scale pp.mag_0 pp.mag_lev
    pp.x_poly_fwd pp.y_poly_fwd pp.elev

/-- Modelled from the spec: `angularSeparation` of `RMS.Math` is not under
src/. Per spec §4.4 it is the great-circle angular separation of two sky
points given in radians. -/
def angularSeparation (ra1 dec1 ra2 dec2 : ℝ) : ℝ :=
  Real.arccos (Real.sin dec1 * Real.sin dec2
    + Real.cos dec1 * Real.cos dec2 * Real.cos (ra2 - ra1))

/-- `computeFOVSize` (lines 91-123): project the four edge midpoints of the
image and measure the horizontal and vertical great-circle separations.
The `jd2Date`/`date2JD` round trip of the timestamps is the identity in the
Julian-date model of timestamps. -/
def computeFOVSize (pp : Platepar) : ℝ × ℝ :=
  let time_data := [pp.JD, pp.JD, pp.JD, pp.JD]
  let x_data := [0, pp.X_res, pp.X_res / 2, pp.X_res / 2]
  let y_data := [pp.Y_res / 2, pp.Y_res / 2, 0, pp.Y_res]
  let level_data := [1, 1, 1, 1]
  let res := XY2CorrectedRADecPP time_data x_data y_data level_data pp
  let ra := res.2.1
  let dec := res.2.2.1
  (degrees (angularSeparation (radians (ra.getD 0 0)) (radians (dec.getD 0 0))
      (radians (ra.getD 1 0)) (radians (dec.getD 1 0))),
   degrees (angularSeparation (radians (ra.getD 2 0)) (radians (dec.getD 2 0))
      (radians (ra.getD 3 0)) (radians (dec.getD 3 0))))

/-- `rotationWrtHorizon` (lines 165-200): the rotation of the field with
respect to the horizon, from the image centre and a point 10 px to its
right, wrapped to `(-180, 180]`. -/
def rotationWrtHorizon (pp : Platepar) : ℝ :=
  let azalt := XY2altAz [pp.X_res / 2, pp.X_res / 2 + 10] [pp.Y_res / 2, pp.Y_res / 2]
    pp.lat pp.lon pp.RA_d pp.dec_d pp.Ho pp.X_res pp.Y_res pp.pos_angle_ref
    pp.F_scale pp.x_poly_fwd pp.y_poly_fwd
  let rot_angle := degrees (atan2
    (radians (azalt.2.getD 1 0) - radians (azalt.2.getD 0 0))
    (radians (azalt.1.getD 1 0) - radians (azalt.1.getD 0 0)))
  if 180 < rot_angle then rot_angle - 360 else rot_angle

/-- `rotationWrtStandard` (lines 243-277): the rotation of the field with
respect to the celestial meridian, wrapped to `[0, 360)`. -/
def rotationWrtStandard (pp : Platepar) : ℝ :=
  let res := XY2CorrectedRADecPP [pp.JD, pp.JD] [pp.X_res / 2, pp.X_res / 2 + 10]
    [pp.Y_res / 2, pp.Y_res / 2] [1, 1] pp
  let ra := res.2.1
  let dec := res.2.2.1
  pymod (degrees (atan2 (radians (dec.getD 0 0) - radians (dec.getD 1 0))
    (radians (ra.getD 0 0) - radians (ra.getD 1 0)))) 360

/-- The residual of `_rotAngleResidual` (lines 220-229 and 298-307):
`180 - |(|target - computed|) - 180|`, where the caller has already reduced
`target` mod 360 and the closure reduces the computed rotation mod 360. -/
def rotAngleResidual (target computed : ℝ) : ℝ :=
  180 - |(|target - computed|) - 180|

/-!
The position-angle solvers (`rotationWrtHorizonToPosAngle`, lines 204-238,
and `rotationWrtStandardToPosAngle`, lines 282-316) mutate a Python object:
`platepar = copy.deepcopy(platepar)` rebinds the local name to a fresh
object, and the `_rotAngleResidual` closure assigns `platepar.pos_angle_ref`
on that copy at every evaluation requested by `scipy.optimize.minimize`.

To state what the caller's object looks like after the call, objects live in
an explicit heap (a list of `Platepar`, indexed by address). `deepcopy`
appends a copy of the addressed object; each residual evaluation overwrites
the copy's `pos_angle_ref` in place. The minimizer is abstracted by the list
of position-angle values it probes (any adaptive strategy produces some such
list) and by an arbitrary selection function for the returned optimum.
-/

/-- One residual evaluation requested by the minimizer: assign the probed
position angle to the object at `copyAddr`, then compute the residual from
the rotation of the mutated object. State is `(heap, residuals so far)`. -/
def solverProbeStep (rotFn : Platepar → ℝ) (copyAddr : Nat) (target : ℝ)
    (s : List Platepar × List ℝ) (p : ℝ) : List Platepar × List ℝ :=
  let heap := s.1.set copyAddr (setPosAngle (s.1.getD copyAddr default) p)
  let r := rotAngleResidual target (pymod (rotFn (heap.getD copyAddr default)) 360)
  (heap, s.2 ++ [r])

/-- The common body of both position-angle solvers: reduce the target mod
360, deep-copy the platepar at `addr`, run the minimizer's probes against
the copy, and return the chosen angle mod 360 together with the final heap. -/
def posAngleSolver (rotFn : Platepar → ℝ) (heap : List Platepar) (addr : Nat)
    (rot_angle : ℝ) (probes : List ℝ) (choose : List ℝ → ℝ) : ℝ × List Platepar :=
  let target := pymod rot_angle 360
  let copyAddr := heap.length
  let heap0 := heap ++ [heap.getD addr default]
  let final := probes.foldl (solverProbeStep rotFn copyAddr target) (heap0, [])
  (pymod (choose final.2) 360, final.1)

/-- `rotationWrtHorizonToPosAngle` (lines 204-238) in the heap model. -/
def rotationWrtHorizonToPosAngle (heap : List Platepar) (addr : Nat)
    (rot_angle : ℝ) (probes : List ℝ) (choose : List ℝ → ℝ) : ℝ × List Platepar :=
  posAngleSolver rotationWrtHorizon heap addr rot_angle probes choose

/-- `rotationWrtStandardToPosAngle` (lines 282-316) in the heap model. -/
def rotationWrtStandardToPosAngle (heap : List Platepar) (addr : Nat)
    (rot_angle : ℝ) (probes : List ℝ) (choose : List ℝ → ℝ) : ℝ × List Platepar :=
  posAngleSolver rotationWrtStandard heap addr rot_angle probes choose

/-- The distortion-free pole-pointing platepar configuration used for claim
C8: station at the pole looking at the celestial equator (`lat = 90`,
`dec_d = 0`, `pos_angle_ref = 90`, `RA_d = lon = Ho = 0`, reference epoch
J2000.0), arbitrary image resolution `X_res` x `Y_res` px, arbitrary image
scale `F` px/deg, zero forward distortion. -/
def polePP (X_res Y_res F : ℝ) : Platepar :=
  { lat := 90, lon := 0, RA_d := 0, dec_d := 0, JD := 2451545, Ho := 0,
    pos_angle_ref := 90, X_res := X_res, Y_res := Y_res, F_scale := F,
    x_poly_fwd := fun _ => 0, y_poly_fwd := fun _ => 0,
    mag_0 := -2.5, mag_lev := 0, UT_corr := 0, elev := 0 }

/-- A platepar whose forward distortion polynomials cancel the centred pixel
coordinates exactly (`x_poly_fwd[1] = -1`, `y_poly_fwd[2] = -1`, all other
coefficients zero): every pixel rectifies to the image centre, so the
computed field of view is `(0, 0)` for every image scale. -/
def ppCancel (F : ℝ) : Platepar :=
  { lat := 45, lon := 0, RA_d := 0, dec_d := 0, JD := 2451545, Ho := 0,
    pos_angle_ref := 90, X_res := 1280, Y_res := 720, F_scale := F,
    x_poly_fwd := fun i => if i.val = 1 then -1 else 0,
    y_poly_fwd := fun i => if i.val = 2 then -1 else 0,
    mag_0 := -2.5, mag_lev := 0, UT_corr := 0, elev := 0 }

/-! ### Helper lemmas about `pymod`, `radians`, `degrees`, `atan2` -/

theorem pymod_nonneg (x : ℝ) {c : ℝ} (hc : 0 < c) : 0 ≤ pymod x c := by
  have h := Int.floor_le (x / c)
  have : c * (⌊x / c⌋ : ℝ) ≤ x := by
    have := mul_le_mul_of_nonneg_left h (le_of_lt hc)
    calc c * (⌊x / c⌋ : ℝ) ≤ c * (x / c) := this
    _ = x := by field_simp
  simpa [pymod] using this

theorem pymod_lt (x : ℝ) {c : ℝ} (hc : 0 < c) : pymod x c < c := by
  have h := Int.lt_floor_add_one (x / c)
  have : x < c * (⌊x / c⌋ : ℝ) + c := by
    have := mul_lt_mul_of_pos_left h hc
    calc x = c * (x / c) := by field_simp
    _ < c * ((⌊x / c⌋ : ℝ) + 1) := this
    _ = c * (⌊x / c⌋ : ℝ) + c := by ring
  simp only [pymod]
  linarith

theorem pymod_eq_self {x c : ℝ} (h0 : 0 ≤ x) (h1 : x < c) : pymod x c = x := by
  have hc : 0 < c := lt_of_le_of_lt h0 h1
  have hfloor : ⌊x / c⌋ = 0 := by
    rw [Int.floor_eq_zero_iff]
    constructor
    · exact div_nonneg h0 (le_of_lt hc)
    · rw [div_lt_one hc]; exact h1
  simp [pymod, hfloor]

theorem pymod_neg_eq_add {x c : ℝ} (h0 : -c ≤ x) (h1 : x < 0) : pymod x c = x + c := by
  have hc : 0 < c := by linarith
  have hfloor : ⌊x / c⌋ = -1 := by
    rw [Int.floor_eq_iff]
    constructor
    · push_cast
      rw [le_div_iff hc]
      linarith
    · push_cast
      rw [div_lt_iff hc]
      linarith
  rw [pymod, hfloor]
  push_cast
  ring

theorem pymod_add_int_mul (x : ℝ) {c : ℝ} (hc : c ≠ 0) (k : ℤ) :
    pymod (x + c * k) c = pymod x c := by
  have : (x + c * k) / c = x / c + k := by field_simp; ring
  rw [pymod, this, Int.floor_add_int, pymod]
  push_cast
  ring

theorem pymod_eq_pymod_iff {x y c : ℝ} (hc : 0 < c) :
    pymod x c = pymod y c ↔ ∃ k : ℤ, x - y = c * k := by
  constructor
  · intro h
    refine ⟨⌊x / c⌋ - ⌊y / c⌋, ?_⟩
    have := h
    simp only [pymod] at this
    push_cast
    linarith
  · rintro ⟨k, hk⟩
    have hx : x = y + c * k := by linarith
    rw [hx, pymod_add_int_mul _ (ne_of_gt hc)]

theorem pymod_mem_Ico (x : ℝ) {c : ℝ} (hc : 0 < c) : pymod x c ∈ Set.Ico 0 c :=
  ⟨pymod_nonneg x hc, pymod_lt x hc⟩

theorem degrees_radians (x : ℝ) : degrees (radians x) = x := by
  have := pi_ne_zero
  field_simp [degrees, radians]

theorem radians_degrees (x : ℝ) : radians (degrees x) = x := by
  have := pi_ne_zero
  field_simp [degrees, radians]

theorem radians_zero : radians 0 = 0 := by simp [radians]

theorem degrees_zero : degrees 0 = 0 := by simp [degrees]

theorem radians_pi_arg : radians 180 = π := by
  have := pi_ne_zero
  field_simp [radians]

theorem degrees_pi : degrees π = 180 := by
  rw [← radians_pi_arg, degrees_radians]

theorem radians_ninety : radians 90 = π / 2 := by
  field_simp [radians]
  ring

theorem radians_forty_five : radians 45 = π / 4 := by
  field_simp [radians]
  ring

theorem radians_two_seventy : radians 270 = 3 * π / 2 := by
  field_simp [radians]
  ring

theorem degrees_neg (x : ℝ) : degrees (-x) = -degrees x := by
  simp [degrees, neg_div]

theorem radians_neg (x : ℝ) : radians (-x) = -radians x := by
  simp [radians, neg_div]

theorem atan2_le_pi (y x : ℝ) : atan2 y x ≤ π := Complex.arg_le_pi _

theorem neg_pi_lt_atan2 (y x : ℝ) : -π < atan2 y x := Complex.neg_pi_lt_arg _

theorem atan2_zero_nonneg {x : ℝ} (h : 0 ≤ x) : atan2 0 x = 0 := by
  have : (⟨x, 0⟩ : ℂ) = (x : ℂ) := by
    apply Complex.ext <;> simp
  rw [atan2, this]
  exact Complex.arg_ofReal_of_nonneg h

theorem atan2_zero_neg {x : ℝ} (h : x < 0) : atan2 0 x = π := by
  have : (⟨x, 0⟩ : ℂ) = (x : ℂ) := by
    apply Complex.ext <;> simp
  rw [atan2, this]
  exact Complex.arg_ofReal_of_neg h

theorem atan2_cos_sin {θ : ℝ} (h1 : -π < θ) (h2 : θ ≤ π) :
    atan2 (Real.sin θ) (Real.cos θ) = θ := by
  have : (⟨Real.cos θ, Real.sin θ⟩ : ℂ) = Complex.cos θ + Complex.sin θ * Complex.I := by
    apply Complex.ext <;>
      simp [Complex.cos_ofReal_re, Complex.sin_ofReal_re, Complex.add_im, Complex.mul_im]
  rw [atan2, this]
  exact Complex.arg_cos_add_sin_mul_I ⟨h1, h2⟩

theorem atan2_pos_smul {r : ℝ} (hr : 0 < r) (y x : ℝ) :
    atan2 (r * y) (r * x) = atan2 y x := by
  have : (⟨r * x, r * y⟩ : ℂ) = (r : ℂ) * ⟨x, y⟩ := by
    apply Complex.ext <;> simp [Complex.mul_re, Complex.mul_im]
  rw [atan2, this, Complex.arg_real_mul _ hr, atan2]

/-! ### Claim C1 -/

/-- Claim C1, counterexample. The claim states that both axes use the fixed
term order ending in `X·r, Y·r`. With all X coefficients zero,
`y_poly_fwd = (0,…,0,1,0)` (single 1 at index 10), `X_res = Y_res = 0`,
`F_scale = 1` and input point `(3, 4)`, the source's rectification yields
`Y = 4 + 4·5 = 24` (index 10 multiplies `Y·r`), while the claim's fixed
order yields `Y = 4 + 3·5 = 19` (index 10 multiplying `X·r`). -/
theorem applyFieldCorrection_term_order_counterexample :
    (applyFieldCorrectionPoint (fun _ => 0) (fun i => if i.val = 10 then 1 else 0)
      0 0 1 3 4).2 = 24
    ∧ (claimedFieldCorrectionPoint (fun _ => 0) (fun i => if i.val = 10 then 1 else 0)
      0 0 1 3 4).2 = 19
    ∧ (24 : ℝ) ≠ 19 := by
  have h25 : ((3 - (0:ℝ)/2) ^ 2 + (4 - (0:ℝ)/2) ^ 2) = 5 ^ 2 := by norm_num
  refine ⟨?_, ?_, by norm_num⟩ <;>
  · simp only [applyFieldCorrectionPoint, claimedFieldCorrectionPoint, h25,
      Real.sqrt_sq (by norm_num : (0:ℝ) ≤ 5)]
    norm_num [show ((0:Fin 12)).val = 0 from rfl, show ((1:Fin 12)).val = 1 from rfl,
      show ((2:Fin 12)).val = 2 from rfl, show ((3:Fin 12)).val = 3 from rfl,
      show ((4:Fin 12)).val = 4 from rfl, show ((5:Fin 12)).val = 5 from rfl,
      show ((6:Fin 12)).val = 6 from rfl, show ((7:Fin 12)).val = 7 from rfl,
      show ((8:Fin 12)).val = 8 from rfl, show ((9:Fin 12)).val = 9 from rfl,
      show ((10:Fin 12)).val = 10 from rfl, show ((11:Fin 12)).val = 11 from rfl]

/-- Claim C1, amended: for every input point, the rectification subtracts
half the image resolution from each pixel coordinate, evaluates the 12-term
polynomial for each axis — the X axis with terms in the order constant, X, Y,
X², XY, Y², X³, X²Y, XY², Y³, X·r, Y·r and the Y axis with the last two
radial terms swapped (…, Y·r, X·r), with r = √(X²+Y²) — adds the polynomial
value to the centred coordinate, and divides both axes by F_scale. -/
theorem applyFieldCorrection_point_amended (x_poly_fwd y_poly_fwd : Fin 12 → ℝ)
    (X_res Y_res F_scale X Y : ℝ) :
    applyFieldCorrectionPoint x_poly_fwd y_poly_fwd X_res Y_res F_scale X Y
      = amendedFieldCorrectionPoint x_poly_fwd y_poly_fwd X_res Y_res F_scale X Y := by
  simp only [applyFieldCorrectionPoint, amendedFieldCorrectionPoint, Prod.mk.injEq]

/-! ### Claim C3 -/

theorem rotAngleResidual_eq_zero_iff (t v : ℝ) :
    rotAngleResidual (pymod t 360) (pymod v 360) = 0 ↔ ∃ k : ℤ, t - v = 360 * k := by
  have h360 : (0:ℝ) < 360 := by norm_num
  have ha := pymod_mem_Ico t h360
  have hb := pymod_mem_Ico v h360
  set a := pymod t 360 with hadef
  set b := pymod v 360 with hbdef
  have habs : |a - b| < 360 := by
    rw [abs_lt]
    constructor <;> [linarith [ha.1, ha.2, hb.1, hb.2]; linarith [ha.1, ha.2, hb.1, hb.2]]
  have step1 : rotAngleResidual a b = 0 ↔ |(|a - b|) - 180| = 180 := by
    unfold rotAngleResidual
    constructor <;> intro h <;> linarith
  have step2 : |(|a - b|) - 180| = 180 ↔ a = b := by
    rw [abs_eq (by norm_num : (0:ℝ) ≤ 180)]
    constructor
    · rintro (h | h)
      · exfalso
        have : |a - b| = 360 := by linarith
        rw [this] at habs
        exact absurd habs (lt_irrefl _)
      · have : |a - b| = 0 := by linarith
        have := abs_eq_zero.mp this
        linarith
    · intro h
      rw [h]
      simp
  rw [step1, step2, hadef, hbdef, pymod_eq_pymod_iff h360]

/-- Claim C3: the position-angle solvers' residual
`180 - |(|target - rotation(p)|) - 180|` (both angles first reduced mod 360)
vanishes exactly when the target rotation and the rotation computed at
position angle `p` coincide modulo 360 degrees — for the horizon-frame
solver (residual built from `rotationWrtHorizon`) and for the standard-frame
solver (residual built from `rotationWrtStandard`) alike. -/
theorem rotAngleResidual_zero_iff_rotation_matches (pp : Platepar) (target p : ℝ) :
    (rotAngleResidual (pymod target 360)
        (pymod (rotationWrtHorizon (setPosAngle pp p)) 360) = 0
      ↔ ∃ k : ℤ, target - rotationWrtHorizon (setPosAngle pp p) = 360 * k)
    ∧ (rotAngleResidual (pymod target 360)
        (pymod (rotationWrtStandard (setPosAngle pp p)) 360) = 0
      ↔ ∃ k : ℤ, target - rotationWrtStandard (setPosAngle pp p) = 360 * k) :=
  ⟨rotAngleResidual_eq_zero_iff _ _, rotAngleResidual_eq_zero_iff _ _⟩

/-! ### Claim C4 -/

theorem getD_set_ne {α : Type _} (l : List α) {i j : Nat} (h : i ≠ j) (a d : α) :
    (l.set i a).getD j d = l.getD j d := by
  rw [List.getD_eq_getD_get?, List.getD_eq_getD_get?, List.get?_set_ne a l h]

theorem solver_fold_preserves (rotFn : Platepar → ℝ) (copyAddr : Nat) (target : ℝ)
    (probes : List ℝ) (addr : Nat) (h : addr ≠ copyAddr) :
    ∀ s : List Platepar × List ℝ,
      ((probes.foldl (solverProbeStep rotFn copyAddr target) s).1).getD addr default
        = (s.1).getD addr default := by
  induction probes with
  | nil => intro s; rfl
  | cons p ps ih =>
    intro s
    rw [List.foldl_cons, ih]
    simp only [solverProbeStep]
    exact getD_set_ne _ (fun hh => h hh.symm) _ _

/-- Claim C4: both position-angle solvers leave the caller's platepar object
untouched — after the call the heap still holds, at the caller's address,
exactly the platepar that was passed in (hence every field of it, including
`pos_angle_ref`, is unchanged); only the deep copy appended by the solver is
mutated during the search. -/
theorem posAngleSolvers_do_not_mutate_caller (heap : List Platepar) (addr : Nat)
    (rot_angle : ℝ) (probes : List ℝ) (choose : List ℝ → ℝ)
    (h : addr < heap.length) :
    ((rotationWrtHorizonToPosAngle heap addr rot_angle probes choose).2).getD addr default
        = heap.getD addr default
    ∧ ((rotationWrtStandardToPosAngle heap addr rot_angle probes choose).2).getD addr default
        = heap.getD addr default := by
  constructor <;>
  · simp only [rotationWrtHorizonToPosAngle, rotationWrtStandardToPosAngle, posAngleSolver]
    rw [solver_fold_preserves _ _ _ _ _ (Nat.ne_of_lt h)]
    exact List.getD_append _ _ _ _ h

/-- Witness for claim C4 at a concrete heap holding one platepar. -/
theorem posAngleSolvers_do_not_mutate_caller_witness :
    0 < ([(default : Platepar)] : List Platepar).length
    ∧ ((rotationWrtHorizonToPosAngle [default] 0 5 [1, 2] fun l => l.getD 0 0).2).getD 0 default
        = ([(default : Platepar)] : List Platepar).getD 0 default
    ∧ ((rotationWrtStandardToPosAngle [default] 0 5 [1, 2] fun l => l.getD 0 0).2).getD 0 default
        = ([(default : Platepar)] : List Platepar).getD 0 default := by
  have h : 0 < ([(default : Platepar)] : List Platepar).length := by simp
  have hmain := posAngleSolvers_do_not_mutate_caller [default] 0 5 [1, 2] (fun l => l.getD 0 0) h
  exact ⟨h, hmain.1, hmain.2⟩

/-! ### Claim C6 -/

/-- Claim C6: in the horizontal-to-equatorial conversion, a data point whose
altitude is exactly 90 degrees has the altitude replaced by 89.9999 degrees
before any trigonometry, so its output equals the output for altitude
89.9999 and the degenerate hour-angle computation at altitude 90 is never
evaluated. -/
theorem altAz2RADec_nudges_altitude_90 (lat lon UT_corr t az : ℝ) :
    altAz2RADecPoint lat lon UT_corr t az 90
      = altAz2RADecPoint lat lon UT_corr t az 89.9999 := by
  simp only [altAz2RADecPoint]
  norm_num

/-! ### Claim C9 -/

theorem zip_getD_of_lt {α β : Type _} (X : List α) (Y : List β) (i : Nat) (da : α) (db : β)
    (hlen : X.length = Y.length) (hi : i < X.length) :
    (X.zip Y).get? i = some (X.getD i da, Y.getD i db) := by
  induction X generalizing Y i with
  | nil => simp at hi
  | cons x xs ih =>
    cases Y with
    | nil => simp at hlen
    | cons y ys =>
      cases i with
      | zero => simp
      | succ n =>
        simp only [List.zip_cons_cons, List.get?_cons_succ, List.getD_cons_succ]
        exact ih ys n (by simpa using hlen) (by simpa using hi)

/-- Claim C9: the bulk rectification is the pointwise map of the single-point
rectification — for coordinate arrays of equal length, the i-th element of
`applyFieldCorrection` on the full arrays equals the result of
`applyFieldCorrection` on the length-1 arrays holding only the i-th point. -/
theorem applyFieldCorrection_bulk_eq_pointwise (x_poly_fwd y_poly_fwd : Fin 12 → ℝ)
    (X_res Y_res F_scale : ℝ) (X_data Y_data : List ℝ) (i : Nat)
    (hlen : X_data.length = Y_data.length) (hi : i < X_data.length) :
    (applyFieldCorrection x_poly_fwd y_poly_fwd X_res Y_res F_scale X_data Y_data).1.getD i 0
      = (applyFieldCorrection x_poly_fwd y_poly_fwd X_res Y_res F_scale
          [X_data.getD i 0] [Y_data.getD i 0]).1.getD 0 0
    ∧ (applyFieldCorrection x_poly_fwd y_poly_fwd X_res Y_res F_scale X_data Y_data).2.getD i 0
      = (applyFieldCorrection x_poly_fwd y_poly_fwd X_res Y_res F_scale
          [X_data.getD i 0] [Y_data.getD i 0]).2.getD 0 0 := by
  have hz := zip_getD_of_lt X_data Y_data i 0 0 hlen hi
  constructor <;>
  · simp only [applyFieldCorrection, List.getD_eq_getD_get?, List.get?_map, hz]
    simp

/-- Witness for claim C9 on the arrays `[1, 2]`, `[3, 4]` at index 1. -/
theorem applyFieldCorrection_bulk_eq_pointwise_witness :
    ([(1:ℝ), 2].length = [(3:ℝ), 4].length ∧ 1 < [(1:ℝ), 2].length)
    ∧ (applyFieldCorrection (fun _ => 0) (fun _ => 0) 8 6 2 [1, 2] [3, 4]).1.getD 1 0
      = (applyFieldCorrection (fun _ => 0) (fun _ => 0) 8 6 2
          [[(1:ℝ), 2].getD 1 0] [[(3:ℝ), 4].getD 1 0]).1.getD 0 0 := by
  refine ⟨⟨by simp, by simp⟩, ?_⟩
  exact (applyFieldCorrection_bulk_eq_pointwise (fun _ => 0) (fun _ => 0) 8 6 2
    [1, 2] [3, 4] 1 (by simp) (by simp)).1

/-! ### Claim C7 -/

theorem calculateMagnitudes_entry (level_data : List ℝ) (mag_0 mag_lev : ℝ) (i : Nat)
    (hi : i < level_data.length) :
    (calculateMagnitudes level_data mag_0 mag_lev).getD i .nan
      = npAdd (npMul mag_0 (npLog10 (level_data.getD i 0))) mag_lev := by
  simp only [calculateMagnitudes, List.getD_eq_getD_get?, List.get?_map]
  cases hq : level_data.get? i with
  | none =>
    exfalso
    have := List.get?_eq_none.mp hq
    omega
  | some v => simp [hq]

/-- Claim C7, amended: the levels-to-magnitude conversion returns elementwise
`slope * log10 level + offset` for entries with positive level; for entries
with non-positive level it does not raise an error but yields a non-finite
entry — NaN for negative levels, and an infinity for zero levels (`+inf`, not
`-inf`, when the slope is negative as in the standard `-2.5` calibration). -/
theorem calculateMagnitudes_spec (level_data : List ℝ) (mag_0 mag_lev : ℝ) (i : Nat)
    (hi : i < level_data.length) :
    (0 < level_data.getD i 0 →
      (calculateMagnitudes level_data mag_0 mag_lev).getD i .nan
        = .num (mag_0 * (Real.log (level_data.getD i 0) / Real.log 10) + mag_lev))
    ∧ (level_data.getD i 0 ≤ 0 →
      ((calculateMagnitudes level_data mag_0 mag_lev).getD i .nan).nonFinite)
    ∧ (level_data.getD i 0 < 0 →
      (calculateMagnitudes level_data mag_0 mag_lev).getD i .nan = .nan)
    ∧ (level_data.getD i 0 = 0 → mag_0 < 0 →
      (calculateMagnitudes level_data mag_0 mag_lev).getD i .nan = .posinf) := by
  rw [calculateMagnitudes_entry level_data mag_0 mag_lev i hi]
  set lvl := level_data.getD i 0 with hlvl
  refine ⟨?_, ?_, ?_, ?_⟩
  · intro hpos
    simp [npLog10, npMul, npAdd, hpos]
  · intro hle
    rcases lt_or_eq_of_le hle with hlt | heq
    · simp [npLog10, npMul, npAdd, NpVal.nonFinite, not_lt.mpr hle, ne_of_lt hlt]
    · rcases lt_trichotomy mag_0 0 with h0 | h0 | h0 <;>
        simp [npLog10, npMul, npAdd, NpVal.nonFinite, not_lt.mpr hle, heq, h0,
          not_lt.mpr h0.le, lt_irrefl]
  · intro hlt
    simp [npLog10, npMul, npAdd, not_lt.mpr (le_of_lt hlt), ne_of_lt hlt]
  · intro heq hm
    simp [npLog10, npMul, npAdd, heq, not_lt.mpr (le_of_lt hm), hm]

/-- Claim C7, counterexample: at level 0 with the standard slope `-2.5` the
output entry is `+inf`, which is neither NaN nor `-inf` as the claim states. -/
theorem calculateMagnitudes_posinf_counterexample :
    (calculateMagnitudes [0] (-2.5) 7).getD 0 .nan = .posinf
    ∧ NpVal.posinf ≠ NpVal.nan ∧ NpVal.posinf ≠ NpVal.neginf := by
  refine ⟨?_, by simp, by simp⟩
  norm_num [calculateMagnitudes, npLog10, npMul, npAdd]

/-- Witness for claim C7 on the level array `[10, 0]` at index 1. -/
theorem calculateMagnitudes_spec_witness :
    1 < ([(10:ℝ), 0] : List ℝ).length
    ∧ ((calculateMagnitudes [10, 0] (-2.5) 7).getD 1 .nan).nonFinite :=
  ⟨by simp, (calculateMagnitudes_spec [10, 0] (-2.5) 7 1 (by simp)).2.1 (by simp)⟩

/-! ### Claim C10 -/

/-- Claim C10: in `XY2CorrectedRADec` the returned magnitude array depends
only on the level data and the photometric coefficients — two runs that
differ in the time, X, Y arrays and in every astrometric parameter return
identical magnitude arrays — and two runs that differ only in the level
array return identical JD, RA and Dec arrays. -/
theorem XY2CorrectedRADec_noninterference
    (time_data time' X_data X' Y_data Y' level_data level' : List ℝ)
    (lat lat' lon lon' Ho Ho' X_res X_res' Y_res Y_res' RA_d RA_d' dec_d dec_d'
      pos_angle_ref pos' F_scale F' mag_0 mag_lev station_ht ht' : ℝ)
    (x_poly_fwd xp' y_poly_fwd yp' : Fin 12 → ℝ) :
    ((XY2CorrectedRADec time_data X_data Y_data level_data lat lon Ho X_res Y_res
        RA_d dec_d pos_angle_ref F_scale mag_0 mag_lev x_poly_fwd y_poly_fwd
        station_ht).2.2.2
      = (XY2CorrectedRADec time' X' Y' level_data lat' lon' Ho' X_res' Y_res'
        RA_d' dec_d' pos' F' mag_0 mag_lev xp' yp' ht').2.2.2)
    ∧ ((XY2CorrectedRADec time_data X_data Y_data level_data lat lon Ho X_res Y_res
        RA_d dec_d pos_angle_ref F_scale mag_0 mag_lev x_poly_fwd y_poly_fwd
        station_ht).1
      = (XY2CorrectedRADec time_data X_data Y_data level' lat lon Ho X_res Y_res
        RA_d dec_d pos_angle_ref F_scale mag_0 mag_lev x_poly_fwd y_poly_fwd
        station_ht).1)
    ∧ ((XY2CorrectedRADec time_data X_data Y_data level_data lat lon Ho X_res Y_res
        RA_d dec_d pos_angle_ref F_scale mag_0 mag_lev x_poly_fwd y_poly_fwd
        station_ht).2.1
      = (XY2CorrectedRADec time_data X_data Y_data level' lat lon Ho X_res Y_res
        RA_d dec_d pos_angle_ref F_scale mag_0 mag_lev x_poly_fwd y_poly_fwd
        station_ht).2.1)
    ∧ ((XY2CorrectedRADec time_data X_data Y_data level_data lat lon Ho X_res Y_res
        RA_d dec_d pos_angle_ref F_scale mag_0 mag_lev x_poly_fwd y_poly_fwd
        station_ht).2.2.1
      = (XY2CorrectedRADec time_data X_data Y_data level' lat lon Ho X_res Y_res
        RA_d dec_d pos_angle_ref F_scale mag_0 mag_lev x_poly_fwd y_poly_fwd
        station_ht).2.2.1) := by
  refine ⟨?_, ?_, ?_, ?_⟩ <;> simp only [XY2CorrectedRADec]

/-! ### Claim C2 -/

/-- Claim C2, amended: for every (finite real) JD, longitude, latitude, RA
and Dec, the equatorial-to-horizontal conversion returns an azimuth in the
half-open interval `(0, 360]` — not `[0, 360)`: the azimuth is
`degrees (π + atan2 …)` with no final wrap, so it can attain exactly 360 —
and an altitude in `[-90, 90]`, the altitude being the arcsine of a
sine-of-elevation value constrained (by wrapping) to `[-1, 1]`. -/
theorem raDec2AltAz_output_ranges (JD lon lat ra dec : ℝ) :
    (0 < (raDec2AltAz JD lon lat ra dec).1 ∧ (raDec2AltAz JD lon lat ra dec).1 ≤ 360)
    ∧ (-90 ≤ (raDec2AltAz JD lon lat ra dec).2 ∧ (raDec2AltAz JD lon lat ra dec).2 ≤ 90)
    ∧ (-1 ≤ sinElevWrapped JD lon lat ra dec ∧ sinElevWrapped JD lon lat ra dec < 1) := by
  have hpi := pi_pos
  have hwrap : 0 ≤ pymod (Real.sin (radians lat) * Real.sin (radians dec)
      + Real.cos (radians lat) * Real.cos (radians dec)
        * Real.cos (raDec2AltAzHourAngle JD lon ra) + 1) 2
      ∧ pymod (Real.sin (radians lat) * Real.sin (radians dec)
      + Real.cos (radians lat) * Real.cos (radians dec)
        * Real.cos (raDec2AltAzHourAngle JD lon ra) + 1) 2 < 2 :=
    ⟨pymod_nonneg _ (by norm_num), pymod_lt _ (by norm_num)⟩
  refine ⟨⟨?_, ?_⟩, ⟨?_, ?_⟩, ?_, ?_⟩
  · have hA := neg_pi_lt_atan2 (Real.sin (raDec2AltAzHourAngle JD lon ra))
      (Real.cos (raDec2AltAzHourAngle JD lon ra) * Real.sin (radians lat)
        - Real.tan (radians dec) * Real.cos (radians lat))
    simp only [raDec2AltAz, degrees]
    have : (0:ℝ) < π + atan2 (Real.sin (raDec2AltAzHourAngle JD lon ra))
        (Real.cos (raDec2AltAzHourAngle JD lon ra) * Real.sin (radians lat)
          - Real.tan (radians dec) * Real.cos (radians lat)) := by linarith
    positivity
  · have hA := atan2_le_pi (Real.sin (raDec2AltAzHourAngle JD lon ra))
      (Real.cos (raDec2AltAzHourAngle JD lon ra) * Real.sin (radians lat)
        - Real.tan (radians dec) * Real.cos (radians lat))
    simp only [raDec2AltAz, degrees]
    rw [div_le_iff hpi]
    nlinarith
  · have ha := Real.neg_pi_div_two_le_arcsin (sinElevWrapped JD lon lat ra dec)
    simp only [raDec2AltAz, degrees]
    rw [le_div_iff hpi]
    nlinarith
  · have ha := Real.arcsin_le_pi_div_two (sinElevWrapped JD lon lat ra dec)
    simp only [raDec2AltAz, degrees]
    rw [div_le_iff hpi]
    nlinarith
  · simp only [sinElevWrapped]
    linarith [hwrap.1]
  · simp only [sinElevWrapped]
    linarith [hwrap.2]

/-- Claim C2, counterexample: at JD = 2451545.0 (J2000.0),
`lon = -280.46061837`, `lat = 0`, `RA = 0`, `Dec = 45`, the hour angle is
exactly 0 and the `atan2` argument pair is `(0, -1)`, so the returned
azimuth equals exactly 360 — outside the claimed interval `[0, 360)`. -/
theorem raDec2AltAz_azimuth_360_counterexample :
    (raDec2AltAz 2451545 (-280.46061837) 0 0 45).1 = 360
    ∧ ¬ (raDec2AltAz 2451545 (-280.46061837) 0 0 45).1 < 360 := by
  have hpi := pi_pos
  have h1 : siderealHourAngle 2451545 = 280.46061837 := by
    simp only [siderealHourAngle]
    norm_num
    exact pymod_eq_self (by norm_num) (by norm_num)
  have h2 : raDec2AltAzHourAngle 2451545 (-280.46061837) 0 = 0 := by
    simp only [raDec2AltAzHourAngle, h1]
    norm_num [radians_zero]
    rw [pymod_eq_self hpi.le (by linarith)]
    ring
  have hmain : (raDec2AltAz 2451545 (-280.46061837) 0 0 45).1 = 360 := by
    simp only [raDec2AltAz, h2]
    rw [radians_zero, radians_forty_five]
    rw [Real.sin_zero, Real.cos_zero, Real.tan_pi_div_four]
    norm_num
    rw [atan2_zero_neg (by norm_num : (-1:ℝ) < 0)]
    have := pi_ne_zero
    field_simp [degrees]
    ring
  exact ⟨hmain, by rw [hmain]; exact lt_irrefl 360⟩

/-! ### Claim C5 -/

theorem XY2altAzPoint_pos_add_360 (lat lon RA_d dec_d Ho pos_angle_ref X_pix Y_pix : ℝ) :
    XY2altAzPoint lat lon RA_d dec_d Ho (pos_angle_ref + 360) X_pix Y_pix
      = XY2altAzPoint lat lon RA_d dec_d Ho pos_angle_ref X_pix Y_pix := by
  have key : pymod (90 - (pos_angle_ref + 360) + degrees (atan2 Y_pix X_pix)) 360
      = pymod (90 - pos_angle_ref + degrees (atan2 Y_pix X_pix)) 360 := by
    have harg : 90 - (pos_angle_ref + 360) + degrees (atan2 Y_pix X_pix)
        = 90 - pos_angle_ref + degrees (atan2 Y_pix X_pix) + 360 * ((-1 : ℤ) : ℝ) := by
      push_cast
      ring
    rw [harg, pymod_add_int_mul _ (by norm_num : (360:ℝ) ≠ 0) (-1)]
  simp only [XY2altAzPoint, key]

theorem XY2altAz_pos_add_360 (X_data Y_data : List ℝ) (lat lon RA_d dec_d Ho : ℝ)
    (X_res Y_res pos_angle_ref F_scale : ℝ) (x_poly_fwd y_poly_fwd : Fin 12 → ℝ) :
    XY2altAz X_data Y_data lat lon RA_d dec_d Ho X_res Y_res (pos_angle_ref + 360)
      F_scale x_poly_fwd y_poly_fwd
      = XY2altAz X_data Y_data lat lon RA_d dec_d Ho X_res Y_res pos_angle_ref
      F_scale x_poly_fwd y_poly_fwd := by
  simp only [XY2altAz, XY2altAzPoint_pos_add_360]

theorem degrees_mem_Ioc {x : ℝ} (h1 : -π < x) (h2 : x ≤ π) :
    -180 < degrees x ∧ degrees x ≤ 180 := by
  have hpi := pi_pos
  constructor
  · simp only [degrees]
    rw [lt_div_iff hpi]
    nlinarith
  · simp only [degrees]
    rw [div_le_iff hpi]
    nlinarith

theorem wrap180_atan2_mem_Ioc (y x : ℝ) :
    -180 < (if 180 < degrees (atan2 y x) then degrees (atan2 y x) - 360
        else degrees (atan2 y x))
    ∧ (if 180 < degrees (atan2 y x) then degrees (atan2 y x) - 360
        else degrees (atan2 y x)) ≤ 180 := by
  have h := degrees_mem_Ioc (neg_pi_lt_atan2 y x) (atan2_le_pi y x)
  rw [if_neg (not_lt.mpr h.2)]
  exact h

theorem rotationWrtHorizon_mem_Ioc (pp : Platepar) :
    -180 < rotationWrtHorizon pp ∧ rotationWrtHorizon pp ≤ 180 := by
  simp only [rotationWrtHorizon]
  exact wrap180_atan2_mem_Ioc _ _

/-- Claim C5: adding 360 degrees to the platepar's position angle leaves
`rotationWrtHorizon` (valued in `(-180, 180]`) and `rotationWrtStandard`
(valued in `[0, 360)`) unchanged — in fact exactly equal, since the position
angle only enters through an angle reduced mod 360. -/
theorem rotation_pos_angle_wrap_invariance (pp : Platepar) :
    rotationWrtHorizon (setPosAngle pp (pp.pos_angle_ref + 360)) = rotationWrtHorizon pp
    ∧ rotationWrtStandard (setPosAngle pp (pp.pos_angle_ref + 360)) = rotationWrtStandard pp
    ∧ (-180 < rotationWrtHorizon pp ∧ rotationWrtHorizon pp ≤ 180)
    ∧ (0 ≤ rotationWrtStandard pp ∧ rotationWrtStandard pp < 360) := by
  refine ⟨?_, ?_, rotationWrtHorizon_mem_Ioc pp, ?_⟩
  · simp only [rotationWrtHorizon, setPosAngle, XY2altAz_pos_add_360]
  · simp only [rotationWrtStandard, XY2CorrectedRADecPP, XY2CorrectedRADec, cyXYToRADec,
      setPosAngle, XY2altAz_pos_add_360]
  · exact ⟨pymod_nonneg _ (by norm_num), pymod_lt _ (by norm_num)⟩

/-! ### Claim C8 -/

theorem sqrt_two_div_two_pos : (0:ℝ) < Real.sqrt 2 / 2 := by
  have : (0:ℝ) < Real.sqrt 2 := Real.sqrt_pos.mpr (by norm_num)
  linarith

theorem sq_sqrt_two_div_two : (Real.sqrt 2 / 2) ^ 2 = 1 / 2 := by
  have h : Real.sqrt 2 ^ 2 = 2 := Real.sq_sqrt (by norm_num)
  field_simp
  nlinarith [h]

theorem sin_pi_div_four_val : Real.sin (π / 4) = Real.sqrt 2 / 2 := Real.sin_pi_div_four

theorem xy2altaz_cancel_point : XY2altAzPoint 45 0 0 0 0 90 0 0 = (180, 45) := by
  have hpi := pi_pos
  have h00 : atan2 0 0 = 0 := atan2_zero_nonneg le_rfl
  have h01 : atan2 0 1 = 0 := atan2_zero_nonneg (by norm_num)
  have hsqrt0 : Real.sqrt ((0:ℝ) ^ 2 + 0 ^ 2) = 0 := by
    norm_num
  have hpymod0 : pymod 0 360 = 0 := pymod_eq_self le_rfl (by norm_num)
  have hs2pos := sqrt_two_div_two_pos
  have hr : Real.sqrt ((-(Real.sqrt 2 / 2)) ^ 2 + 0 ^ 2) = Real.sqrt 2 / 2 := by
    rw [show (-(Real.sqrt 2 / 2)) ^ 2 + (0:ℝ) ^ 2 = (Real.sqrt 2 / 2) ^ 2 by ring]
    exact Real.sqrt_sq hs2pos.le
  have hatneg : atan2 0 (-(Real.sqrt 2 / 2)) = π := atan2_zero_neg (by linarith)
  have hat45 : atan2 (Real.sqrt 2 / 2) (Real.sqrt 2 / 2) = π / 4 := by
    rw [show atan2 (Real.sqrt 2 / 2) (Real.sqrt 2 / 2)
        = atan2 (Real.sin (π/4)) (Real.cos (π/4)) by
      rw [Real.sin_pi_div_four, Real.cos_pi_div_four]]
    exact atan2_cos_sin (by linarith) (by linarith)
  have hdeg45 : degrees (π / 4) = 45 := by
    rw [show π / 4 = radians 45 by rw [radians_forty_five], degrees_radians]
  have hdeg180 : degrees π = 180 := degrees_pi
  have hpymod180 : pymod 180 360 = 180 := pymod_eq_self (by norm_num) (by norm_num)
  simp only [XY2altAzPoint, radians_zero, h00, degrees_zero, hsqrt0]
  norm_num [hpymod0, degrees_zero, radians_zero, radians_forty_five, radians_ninety, h01,
    Real.sqrt_one, Real.sin_zero, Real.cos_zero, Real.sin_pi_div_four, Real.cos_pi_div_four,
    hr, hatneg, hat45, hdeg45, hdeg180, hpymod180, Real.sqrt_sq hs2pos.le]

theorem sidereal_J2000 : siderealHourAngle 2451545 = 280.46061837 := by
  simp only [siderealHourAngle]
  norm_num
  exact pymod_eq_self (by norm_num) (by norm_num)

theorem sqrt_two_div_two_mul_self : Real.sqrt 2 / 2 * (Real.sqrt 2 / 2) = 1 / 2 := by
  nlinarith [Real.sq_sqrt (show (0:ℝ) ≤ 2 by norm_num)]

theorem altaz2radec_cancel_point :
    altAz2RADecPoint 45 0 0 2451545 180 45 = (2451545, 280.46061837, 0) := by
  have h01 : atan2 0 1 = 0 := atan2_zero_nonneg (by norm_num)
  have hpym : pymod 280.46061837 360 = 280.46061837 :=
    pymod_eq_self (by norm_num) (by norm_num)
  have hjd : (2451545 : ℝ) - -0 / 24 = 2451545 := by norm_num
  simp only [altAz2RADecPoint, date2JD, hjd, sidereal_J2000]
  norm_num [radians_pi_arg, radians_forty_five, Real.sin_pi, Real.cos_pi,
    Real.sin_pi_div_four, Real.cos_pi_div_four, sqrt_two_div_two_mul_self,
    degrees_zero, h01, hpym, Real.arcsin_zero]
  all_goals exact pymod_eq_self (by norm_num) (by norm_num)

theorem ppCancel_rect (F X Y : ℝ) :
    applyFieldCorrectionPoint (fun i => if i.val = 1 then -1 else 0)
      (fun i => if i.val = 2 then -1 else 0) 1280 720 F X Y = (0, 0) := by
  simp only [applyFieldCorrectionPoint, Prod.mk.injEq]
  norm_num [show ((0:Fin 12)).val = 0 from rfl, show ((1:Fin 12)).val = 1 from rfl,
    show ((2:Fin 12)).val = 2 from rfl, show ((3:Fin 12)).val = 3 from rfl,
    show ((4:Fin 12)).val = 4 from rfl, show ((5:Fin 12)).val = 5 from rfl,
    show ((6:Fin 12)).val = 6 from rfl, show ((7:Fin 12)).val = 7 from rfl,
    show ((8:Fin 12)).val = 8 from rfl, show ((9:Fin 12)).val = 9 from rfl,
    show ((10:Fin 12)).val = 10 from rfl, show ((11:Fin 12)).val = 11 from rfl]

theorem computeFOVSize_ppCancel (F : ℝ) : computeFOVSize (ppCancel F) = (0, 0) := by
  simp only [computeFOVSize, XY2CorrectedRADecPP, XY2CorrectedRADec, cyXYToRADec,
    XY2altAz, applyFieldCorrection, altAz2RADec, ppCancel, date2JD]
  norm_num [ppCancel_rect, xy2altaz_cancel_point, altaz2radec_cancel_point,
    List.zip_cons_cons, radians_zero, Real.sin_zero, Real.cos_zero,
    Real.arccos_one, degrees_zero, angularSeparation]

theorem radians_bounds {d : ℝ} (h0 : 0 < d) (h90 : d < 90) :
    0 < radians d ∧ radians d < π / 2 := by
  have hpi := pi_pos
  constructor
  · simp only [radians]
    positivity
  · simp only [radians]
    rw [div_lt_iff (by norm_num : (0:ℝ) < 180)]
    nlinarith

theorem sqrt_one_sub_sin_sq {x : ℝ} (h : 0 ≤ Real.cos x) :
    Real.sqrt (1 - Real.sin x ^ 2) = Real.cos x := by
  rw [← Real.cos_sq']
  exact Real.sqrt_sq h

theorem pymod_0_360 : pymod 0 360 = 0 := pymod_eq_self le_rfl (by norm_num)

theorem pymod_180_360 : pymod 180 360 = 180 := pymod_eq_self (by norm_num) (by norm_num)

theorem pole_point_right (a : ℝ) (h0 : 0 < a) (h90 : a < 90) :
    XY2altAzPoint 90 0 0 0 0 90 a 0 = (180, a) := by
  have hpi := pi_pos
  obtain ⟨hra0, hra2⟩ := radians_bounds h0 h90
  have hcos : 0 < Real.cos (radians a) :=
    Real.cos_pos_of_mem_Ioo ⟨by linarith, hra2⟩
  have hsqa : Real.sqrt (a ^ 2) = a := Real.sqrt_sq h0.le
  have hsqc : Real.sqrt (Real.cos (radians a) ^ 2) = Real.cos (radians a) :=
    Real.sqrt_sq hcos.le
  have hs1 : Real.sqrt (1 - Real.sin (radians a) ^ 2) = Real.cos (radians a) :=
    sqrt_one_sub_sin_sq hcos.le
  have hat : atan2 (Real.sin (radians a)) (Real.cos (radians a)) = radians a :=
    atan2_cos_sin (by linarith) (by linarith)
  have hdivself : Real.cos (radians a) / Real.cos (radians a) = 1 :=
    div_self (ne_of_gt hcos)
  have h0a : atan2 0 a = 0 := atan2_zero_nonneg h0.le
  have h01 : atan2 0 1 = 0 := atan2_zero_nonneg (by norm_num)
  have hnegc : atan2 0 (-Real.cos (radians a)) = π := atan2_zero_neg (by linarith)
  simp only [XY2altAzPoint]
  norm_num [radians_zero, degrees_zero, pymod_0_360, pymod_180_360, radians_ninety,
    Real.sin_pi_div_two, Real.cos_pi_div_two, Real.sin_zero, Real.cos_zero,
    h0a, h01, hsqa, hs1, hat, hdivself, hnegc, hsqc, degrees_pi, degrees_radians]

theorem atan2_one_zero : atan2 1 0 = π / 2 := by
  have : (⟨0, 1⟩ : ℂ) = Complex.I := by apply Complex.ext <;> simp
  rw [atan2, this, Complex.arg_I]

theorem atan2_neg_one_zero : atan2 (-1) 0 = -(π / 2) := by
  have : (⟨0, -1⟩ : ℂ) = -Complex.I := by apply Complex.ext <;> simp
  rw [atan2, this, Complex.arg_neg_I]

theorem atan2_pos_y_zero {b : ℝ} (hb : 0 < b) : atan2 b 0 = π / 2 := by
  have h1 : atan2 b 0 = atan2 (b * 1) (b * 0) := by norm_num
  rw [h1, atan2_pos_smul hb, atan2_one_zero]

theorem atan2_neg_y_zero {b : ℝ} (hb : 0 < b) : atan2 (-b) 0 = -(π / 2) := by
  have h1 : atan2 (-b) 0 = atan2 (b * -1) (b * 0) := by norm_num
  rw [h1, atan2_pos_smul hb, atan2_neg_one_zero]

theorem degrees_sub (x y : ℝ) : degrees (x - y) = degrees x - degrees y := by
  simp only [degrees]
  ring

theorem degrees_pi_div_two : degrees (π / 2) = 90 := by
  rw [← radians_ninety, degrees_radians]

theorem radians_360 : radians 360 = 2 * π := by
  simp only [radians]
  ring

theorem cos_three_pi_div_two : Real.cos (3 * π / 2) = 0 := by
  rw [show (3:ℝ) * π / 2 = π + π / 2 by ring, Real.cos_add]
  simp

theorem sin_three_pi_div_two : Real.sin (3 * π / 2) = -1 := by
  rw [show (3:ℝ) * π / 2 = π + π / 2 by ring, Real.sin_add]
  simp

theorem pole_point_left (a : ℝ) (h0 : 0 < a) (h90 : a < 90) :
    XY2altAzPoint 90 0 0 0 0 90 (-a) 0 = (180, -a) := by
  have hpi := pi_pos
  obtain ⟨hra0, hra2⟩ := radians_bounds h0 h90
  have hcos : 0 < Real.cos (radians a) :=
    Real.cos_pos_of_mem_Ioo ⟨by linarith, hra2⟩
  have hsqa : Real.sqrt (a ^ 2) = a := Real.sqrt_sq h0.le
  have hsqc : Real.sqrt (Real.cos (radians a) ^ 2) = Real.cos (radians a) :=
    Real.sqrt_sq hcos.le
  have hs1 : Real.sqrt (1 - Real.sin (radians a) ^ 2) = Real.cos (radians a) :=
    sqrt_one_sub_sin_sq hcos.le
  have hatneg : atan2 (-Real.sin (radians a)) (Real.cos (radians a)) = -(radians a) := by
    rw [show -Real.sin (radians a) = Real.sin (-(radians a)) by simp,
      show Real.cos (radians a) = Real.cos (-(radians a)) by simp]
    exact atan2_cos_sin (by linarith) (by linarith)
  have hdivself : Real.cos (radians a) / Real.cos (radians a) = 1 :=
    div_self (ne_of_gt hcos)
  have h0na : atan2 0 (-a) = π := atan2_zero_neg (by linarith)
  have h01 : atan2 0 1 = 0 := atan2_zero_nonneg (by norm_num)
  have hnegc : atan2 0 (-Real.cos (radians a)) = π := atan2_zero_neg (by linarith)
  simp only [XY2altAzPoint]
  norm_num [radians_zero, degrees_zero, pymod_0_360, pymod_180_360, radians_ninety,
    radians_pi_arg, Real.sin_pi_div_two, Real.cos_pi_div_two, Real.sin_zero,
    Real.cos_zero, Real.sin_pi, Real.cos_pi, h0na, h01, hsqa, hs1, hatneg,
    hdivself, hnegc, hsqc, degrees_pi, degrees_neg, degrees_radians]

theorem pole_point_down (b : ℝ) (h0 : 0 < b) (h1 : b < 79) :
    XY2altAzPoint 90 0 0 0 0 90 0 (-b) = (180 - b, 0) := by
  have hpi := pi_pos
  obtain ⟨hrb0, hrb2⟩ := radians_bounds h0 (by linarith)
  have hcos : 0 < Real.cos (radians b) :=
    Real.cos_pos_of_mem_Ioo ⟨by linarith, hrb2⟩
  have hsqb : Real.sqrt (b ^ 2) = b := Real.sqrt_sq h0.le
  have hnyz : atan2 (-b) 0 = -(π / 2) := atan2_neg_y_zero h0
  have hpm270 : pymod (-90 : ℝ) 360 = 270 := by
    rw [pymod_neg_eq_add (by norm_num) (by norm_num)]
    norm_num
  have hatneg : atan2 (-Real.sin (radians b)) (Real.cos (radians b)) = -(radians b) := by
    rw [show -Real.sin (radians b) = Real.sin (-(radians b)) by simp,
      show Real.cos (radians b) = Real.cos (-(radians b)) by simp]
    exact atan2_cos_sin (by linarith) (by linarith)
  have hpymb : pymod b 360 = b := pymod_eq_self h0.le (by linarith)
  have hpyth : Real.cos (radians b) ^ 2 + Real.sin (radians b) ^ 2 = 1 :=
    Real.cos_sq_add_sin_sq _
  have hatpi : atan2 (Real.sin (radians b)) (-Real.cos (radians b)) = π - radians b := by
    rw [show Real.sin (radians b) = Real.sin (π - radians b) by rw [Real.sin_pi_sub],
      show -Real.cos (radians b) = Real.cos (π - radians b) by rw [Real.cos_pi_sub]]
    exact atan2_cos_sin (by linarith) (by linarith)
  have hdeg : degrees (π - radians b) = 180 - b := by
    rw [degrees_sub, degrees_pi, degrees_radians]
  have hpym180b : pymod (180 - b) 360 = 180 - b :=
    pymod_eq_self (by linarith) (by linarith)
  have h01 : atan2 0 1 = 0 := atan2_zero_nonneg (by norm_num)
  simp only [XY2altAzPoint]
  norm_num [radians_zero, degrees_zero, pymod_0_360, radians_ninety, radians_two_seventy,
    Real.sin_pi_div_two, Real.cos_pi_div_two, Real.sin_zero, Real.cos_zero,
    Real.sqrt_one, cos_three_pi_div_two, sin_three_pi_div_two, hnyz, degrees_neg,
    degrees_pi_div_two, hpm270, hsqb, hatneg, degrees_radians, hpymb, radians_neg,
    hpyth, hatpi, hdeg, hpym180b, h01]

theorem pole_point_up (b : ℝ) (h0 : 0 < b) (h1 : b < 79) :
    XY2altAzPoint 90 0 0 0 0 90 0 b = (180 + b, 0) := by
  have hpi := pi_pos
  obtain ⟨hrb0, hrb2⟩ := radians_bounds h0 (by linarith)
  have hcos : 0 < Real.cos (radians b) :=
    Real.cos_pos_of_mem_Ioo ⟨by linarith, hrb2⟩
  have hsqb : Real.sqrt (b ^ 2) = b := Real.sqrt_sq h0.le
  have hyz : atan2 b 0 = π / 2 := atan2_pos_y_zero h0
  have hpm90 : pymod (90 : ℝ) 360 = 90 := pymod_eq_self (by norm_num) (by norm_num)
  have hat : atan2 (Real.sin (radians b)) (Real.cos (radians b)) = radians b :=
    atan2_cos_sin (by linarith) (by linarith)
  have hpymnb : pymod (-b) 360 = -b + 360 :=
    pymod_neg_eq_add (by linarith) (by linarith)
  have h2pi : radians (-360 + b : ℝ) = radians b - 2 * π := by
    simp only [radians]
    ring
  have hsin2pi : Real.sin (radians b - 2 * π) = Real.sin (radians b) := by
    rw [Real.sin_sub]
    simp
  have hcos2pi : Real.cos (radians b - 2 * π) = Real.cos (radians b) := by
    rw [Real.cos_sub]
    simp
  have hpyth : Real.cos (radians b) ^ 2 + Real.sin (radians b) ^ 2 = 1 :=
    Real.cos_sq_add_sin_sq _
  have hatmpi : atan2 (-Real.sin (radians b)) (-Real.cos (radians b)) = radians b - π := by
    rw [show -Real.sin (radians b) = Real.sin (radians b - π) by
        rw [Real.sin_sub]; simp,
      show -Real.cos (radians b) = Real.cos (radians b - π) by
        rw [Real.cos_sub]; simp]
    exact atan2_cos_sin (by linarith) (by linarith)
  have hdeg : degrees (radians b - π) = b - 180 := by
    rw [degrees_sub, degrees_pi, degrees_radians]
  have hpymb180 : pymod (b - 180) 360 = b - 180 + 360 :=
    pymod_neg_eq_add (by linarith) (by linarith)
  have h01 : atan2 0 1 = 0 := atan2_zero_nonneg (by norm_num)
  simp only [XY2altAzPoint]
  norm_num [radians_zero, degrees_zero, pymod_0_360, radians_ninety,
    Real.sin_pi_div_two, Real.cos_pi_div_two, Real.sin_zero, Real.cos_zero,
    Real.sqrt_one, hyz, degrees_pi_div_two, hpm90, hsqb, hat, degrees_radians,
    hpymnb, h2pi, hsin2pi, hcos2pi, hpyth, hatmpi, hdeg, hpymb180, h01]
  all_goals ring

theorem radians_sub (x y : ℝ) : radians (x - y) = radians x - radians y := by
  simp only [radians]
  ring

theorem radians_add (x y : ℝ) : radians (x + y) = radians x + radians y := by
  simp only [radians]
  ring

theorem pole_altaz_point_az180 (alt : ℝ) (hlo : -90 < alt) (hhi : alt < 90) :
    altAz2RADecPoint 90 0 0 2451545 180 alt = (2451545, 280.46061837, alt) := by
  have hpi := pi_pos
  have hrlo : -(π / 2) < radians alt := by
    simp only [radians]
    rw [neg_lt, ← neg_div, ← neg_mul]
    rw [div_lt_iff (by norm_num : (0:ℝ) < 180)]
    nlinarith
  have hrhi : radians alt < π / 2 := by
    simp only [radians]
    rw [div_lt_iff (by norm_num : (0:ℝ) < 180)]
    nlinarith
  have hcalt : 0 < Real.cos (radians alt) := Real.cos_pos_of_mem_Ioo ⟨hrlo, hrhi⟩
  have hne : (alt : ℝ) ≠ 90 := ne_of_lt hhi
  have hjd : (2451545 : ℝ) - -0 / 24 = 2451545 := by norm_num
  have h0c : atan2 0 (Real.cos (radians alt)) = 0 := atan2_zero_nonneg hcalt.le
  have hasin : Real.arcsin (Real.sin (radians alt)) = radians alt :=
    Real.arcsin_sin (by linarith) (by linarith)
  simp only [altAz2RADecPoint, date2JD, hjd, sidereal_J2000, if_neg hne]
  norm_num [radians_pi_arg, radians_ninety, Real.sin_pi, Real.cos_pi,
    Real.sin_pi_div_two, Real.cos_pi_div_two, h0c, degrees_zero, hasin,
    degrees_radians]
  all_goals exact pymod_eq_self (by norm_num) (by norm_num)

theorem pole_altaz_point_down (b : ℝ) (h0 : 0 < b) (h1 : b < 79) :
    altAz2RADecPoint 90 0 0 2451545 (180 - b) 0 = (2451545, 280.46061837 + b, 0) := by
  have hpi := pi_pos
  obtain ⟨hrb0, hrb2⟩ := radians_bounds h0 (by linarith)
  have hne : (180 - b : ℝ) ≠ 90 := by norm_num; linarith
  have hjd : (2451545 : ℝ) - -0 / 24 = 2451545 := by norm_num
  have hradsub : radians (180 - b) = π - radians b := by
    rw [radians_sub, radians_pi_arg]
  have hatneg : atan2 (-Real.sin (radians b)) (Real.cos (radians b)) = -(radians b) := by
    rw [show -Real.sin (radians b) = Real.sin (-(radians b)) by simp,
      show Real.cos (radians b) = Real.cos (-(radians b)) by simp]
    exact atan2_cos_sin (by linarith) (by linarith)
  simp only [altAz2RADecPoint, date2JD, hjd, sidereal_J2000, if_neg hne]
  norm_num [hradsub, radians_ninety, radians_zero, Real.sin_pi_sub, Real.cos_pi_sub,
    Real.sin_pi_div_two, Real.cos_pi_div_two, Real.sin_zero, Real.cos_zero,
    hatneg, degrees_neg, degrees_radians, Real.arcsin_zero, degrees_zero]
  all_goals exact pymod_eq_self (by norm_num; linarith) (by norm_num; linarith)

theorem pole_altaz_point_up (b : ℝ) (h0 : 0 < b) (h1 : b < 79) :
    altAz2RADecPoint 90 0 0 2451545 (180 + b) 0 = (2451545, 280.46061837 - b, 0) := by
  have hpi := pi_pos
  obtain ⟨hrb0, hrb2⟩ := radians_bounds h0 (by linarith)
  have hne : (180 + b : ℝ) ≠ 90 := by norm_num; linarith
  have hjd : (2451545 : ℝ) - -0 / 24 = 2451545 := by norm_num
  have hradadd : radians (180 + b) = π + radians b := by
    rw [radians_add, radians_pi_arg]
  have hsinadd : Real.sin (π + radians b) = -Real.sin (radians b) := by
    rw [Real.sin_add]
    simp
  have hcosadd : Real.cos (π + radians b) = -Real.cos (radians b) := by
    rw [Real.cos_add]
    simp
  have hat : atan2 (Real.sin (radians b)) (Real.cos (radians b)) = radians b :=
    atan2_cos_sin (by linarith) (by linarith)
  simp only [altAz2RADecPoint, date2JD, hjd, sidereal_J2000, if_neg hne]
  norm_num [hradadd, radians_ninety, radians_zero, hsinadd, hcosadd,
    Real.sin_pi_div_two, Real.cos_pi_div_two, Real.sin_zero, Real.cos_zero,
    hat, degrees_radians, Real.arcsin_zero, degrees_zero]
  all_goals exact pymod_eq_self (by norm_num; linarith) (by norm_num; linarith)

theorem degrees_two_radians (x : ℝ) : degrees (2 * radians x) = 2 * x := by
  have := pi_ne_zero
  field_simp [degrees, radians]
  ring

theorem sep_vertical (a H : ℝ) (h0 : 0 < a) (h90 : a < 90) :
    degrees (angularSeparation (radians H) (radians (-a)) (radians H) (radians a))
      = 2 * a := by
  have hpi := pi_pos
  obtain ⟨hra0, hra2⟩ := radians_bounds h0 h90
  have hkey : Real.sin (radians (-a)) * Real.sin (radians a)
      + Real.cos (radians (-a)) * Real.cos (radians a) * Real.cos (radians H - radians H)
      = Real.cos (2 * radians a) := by
    rw [radians_neg, Real.sin_neg, Real.cos_neg, sub_self, Real.cos_zero,
      Real.cos_two_mul']
    ring
  rw [angularSeparation, hkey, Real.arccos_cos (by linarith) (by linarith),
    degrees_two_radians]

theorem sep_horizontal (b H : ℝ) (h0 : 0 < b) (h1 : b < 79) :
    degrees (angularSeparation (radians (H + b)) (radians 0) (radians (H - b)) (radians 0))
      = 2 * b := by
  have hpi := pi_pos
  obtain ⟨hrb0, hrb2⟩ := radians_bounds h0 (by linarith)
  have hkey : Real.sin (radians 0) * Real.sin (radians 0)
      + Real.cos (radians 0) * Real.cos (radians 0)
        * Real.cos (radians (H - b) - radians (H + b))
      = Real.cos (2 * radians b) := by
    rw [radians_zero, Real.sin_zero, Real.cos_zero,
      show radians (H - b) - radians (H + b) = -(2 * radians b) by
        simp only [radians]; ring,
      Real.cos_neg]
    ring
  rw [angularSeparation, hkey, Real.arccos_cos (by linarith) (by linarith),
    degrees_two_radians]

theorem zeroPoly_rect (X_res Y_res F X Y : ℝ) :
    applyFieldCorrectionPoint (fun _ => 0) (fun _ => 0) X_res Y_res F X Y
      = ((X - X_res / 2) / F, (Y - Y_res / 2) / F) := by
  simp only [applyFieldCorrectionPoint, Prod.mk.injEq]
  norm_num

theorem computeFOVSize_polePP {X_res Y_res F : ℝ} (hX : 0 < X_res)
    (hXF : X_res < 180 * F) (hY : 0 < Y_res) (hYF : Y_res < 158 * F) :
    computeFOVSize (polePP X_res Y_res F) = (X_res / F, Y_res / F) := by
  have hF0 : (0:ℝ) < F := by linarith
  have h2F : (0:ℝ) < 2 * F := by linarith
  have ha0 : (0:ℝ) < X_res / (2 * F) := by positivity
  have ha90 : X_res / (2 * F) < 90 := by
    rw [div_lt_iff h2F]
    linarith
  have hb0 : (0:ℝ) < Y_res / (2 * F) := by positivity
  have hb79 : Y_res / (2 * F) < 79 := by
    rw [div_lt_iff h2F]
    linarith
  have hP1 : XY2altAzPoint 90 0 0 0 0 90 (-(X_res / (2 * F))) 0
      = (180, -(X_res / (2 * F))) :=
    pole_point_left _ ha0 ha90
  have hP2 : XY2altAzPoint 90 0 0 0 0 90 (X_res / (2 * F)) 0
      = (180, X_res / (2 * F)) :=
    pole_point_right _ ha0 ha90
  have hP3 : XY2altAzPoint 90 0 0 0 0 90 0 (-(Y_res / (2 * F)))
      = (180 - Y_res / (2 * F), 0) :=
    pole_point_down _ hb0 hb79
  have hP4 : XY2altAzPoint 90 0 0 0 0 90 0 (Y_res / (2 * F))
      = (180 + Y_res / (2 * F), 0) :=
    pole_point_up _ hb0 hb79
  have hQ1 : altAz2RADecPoint 90 0 0 2451545 180 (-(X_res / (2 * F)))
      = (2451545, 280.46061837, -(X_res / (2 * F))) :=
    pole_altaz_point_az180 _ (by linarith) (by linarith)
  have hQ2 : altAz2RADecPoint 90 0 0 2451545 180 (X_res / (2 * F))
      = (2451545, 280.46061837, X_res / (2 * F)) :=
    pole_altaz_point_az180 _ (by linarith) (by linarith)
  have hQ3 : altAz2RADecPoint 90 0 0 2451545 (180 - Y_res / (2 * F)) 0
      = (2451545, 280.46061837 + Y_res / (2 * F), 0) :=
    pole_altaz_point_down _ hb0 hb79
  have hQ4 : altAz2RADecPoint 90 0 0 2451545 (180 + Y_res / (2 * F)) 0
      = (2451545, 280.46061837 - Y_res / (2 * F), 0) :=
    pole_altaz_point_up _ hb0 hb79
  have hSv : degrees (angularSeparation (radians 280.46061837)
      (radians (-(X_res / (2 * F)))) (radians 280.46061837)
      (radians (X_res / (2 * F)))) = 2 * (X_res / (2 * F)) :=
    sep_vertical _ _ ha0 ha90
  have hSh : degrees (angularSeparation (radians (280.46061837 + Y_res / (2 * F)))
      (radians 0) (radians (280.46061837 - Y_res / (2 * F))) (radians 0))
      = 2 * (Y_res / (2 * F)) :=
    sep_horizontal _ _ hb0 hb79
  have e1 : ((0:ℝ) - X_res / 2) / F = -(X_res / (2 * F)) := by ring
  have e2 : (X_res - X_res / 2) / F = X_res / (2 * F) := by ring
  have e3 : (X_res / 2 - X_res / 2) / F = 0 := by ring
  have e4 : (Y_res / 2 - Y_res / 2) / F = 0 := by ring
  have e5 : ((0:ℝ) - Y_res / 2) / F = -(Y_res / (2 * F)) := by ring
  have e6 : (Y_res - Y_res / 2) / F = Y_res / (2 * F) := by ring
  have e7 : (2451545:ℝ) - 0 / 24 = 2451545 := by norm_num
  simp only [computeFOVSize, polePP, XY2CorrectedRADecPP, XY2CorrectedRADec, cyXYToRADec,
    XY2altAz, applyFieldCorrection, altAz2RADec, date2JD, List.zip_cons_cons,
    List.zip_nil_right, List.map_cons, List.map_nil, zeroPoly_rect,
    e1, e2, e3, e4, e5, e6, e7]
  simp only [hP1, hP2, hP3, hP4, List.zip_cons_cons, List.zip_nil_right, List.map_cons,
    List.map_nil, hQ1, hQ2, hQ3, hQ4, List.getD_cons_zero, List.getD_cons_succ,
    hSv, hSh, Prod.mk.injEq]
  constructor <;> ring

/-- Claim C8, counterexample: with the forward distortion polynomials
`x_poly_fwd = (0,-1,0,...)`, `y_poly_fwd = (0,0,-1,0,...)` every pixel
rectifies to the image centre, so `computeFOVSize` returns `(0, 0)` for every
image scale: increasing `F_scale` from 1 to 2 does not strictly decrease
either field-of-view value. -/
theorem computeFOVSize_scale_counterexample :
    (ppCancel 1).F_scale < (ppCancel 2).F_scale
    ∧ computeFOVSize (ppCancel 1) = (0, 0)
    ∧ computeFOVSize (ppCancel 2) = (0, 0)
    ∧ ¬ ((computeFOVSize (ppCancel 2)).1 < (computeFOVSize (ppCancel 1)).1
        ∧ (computeFOVSize (ppCancel 2)).2 < (computeFOVSize (ppCancel 1)).2) := by
  refine ⟨?_, computeFOVSize_ppCancel 1, computeFOVSize_ppCancel 2, ?_⟩
  · norm_num [ppCancel]
  · rw [computeFOVSize_ppCancel, computeFOVSize_ppCancel]
    simp

/-- Claim C8, amended: the claimed strict decrease of both `computeFOVSize`
values under a strictly increased image scale is false for arbitrary
platepars — forward-distortion coefficients cancelling the centred
coordinates make the computed FOV `(0, 0)` for every scale (see the
counterexample) — and holds for every distortion-free platepar in the
pole-pointing configuration `polePP` with arbitrary positive resolutions,
whenever the horizontal half-field is below 90 degrees
(`X_res < 180 * F_scale`) and the vertical half-field below 79 degrees
(`Y_res < 158 * F_scale`; the margin below 90 keeps the reference right
ascension short of wrapping past 360 at the J2000 epoch): there the FOV is
exactly `(X_res / F_scale, Y_res / F_scale)`, strictly antitone in the
scale. -/
theorem computeFOVSize_polePP_strict_antitone (X_res Y_res F1 F2 : ℝ)
    (hX : 0 < X_res) (hY : 0 < Y_res) (hXF : X_res < 180 * F1)
    (hYF : Y_res < 158 * F1) (h12 : F1 < F2) :
    computeFOVSize (polePP X_res Y_res F1) = (X_res / F1, Y_res / F1)
    ∧ computeFOVSize (polePP X_res Y_res F2) = (X_res / F2, Y_res / F2)
    ∧ (computeFOVSize (polePP X_res Y_res F2)).1
        < (computeFOVSize (polePP X_res Y_res F1)).1
    ∧ (computeFOVSize (polePP X_res Y_res F2)).2
        < (computeFOVSize (polePP X_res Y_res F1)).2 := by
  have hF1 : (0:ℝ) < F1 := by linarith
  have h1 := computeFOVSize_polePP hX hXF hY hYF
  have h2 := @computeFOVSize_polePP X_res Y_res F2 hX (by linarith) hY (by linarith)
  refine ⟨h1, h2, ?_, ?_⟩
  · rw [h1, h2]
    exact div_lt_div_of_pos_left hX hF1 h12
  · rw [h1, h2]
    exact div_lt_div_of_pos_left hY hF1 h12

/-- Witness for claim C8 at the 1280 x 720 geometry with scales 8 and 9. -/
theorem computeFOVSize_polePP_strict_antitone_witness :
    ((0:ℝ) < 1280 ∧ (0:ℝ) < 720 ∧ (1280:ℝ) < 180 * 8 ∧ (720:ℝ) < 158 * 8
      ∧ (8:ℝ) < 9)
    ∧ computeFOVSize (polePP 1280 720 8) = (1280 / 8, 720 / 8)
    ∧ computeFOVSize (polePP 1280 720 9) = (1280 / 9, 720 / 9)
    ∧ (computeFOVSize (polePP 1280 720 9)).1 < (computeFOVSize (polePP 1280 720 8)).1
    ∧ (computeFOVSize (polePP 1280 720 9)).2 < (computeFOVSize (polePP 1280 720 8)).2 := by
  have h := computeFOVSize_polePP_strict_antitone 1280 720 8 9 (by norm_num)
    (by norm_num) (by norm_num) (by norm_num) (by norm_num)
  exact ⟨⟨by norm_num, by norm_num, by norm_num, by norm_num, by norm_num⟩,
    h.1, h.2.1, h.2.2.1, h.2.2.2⟩
